import Mathlib

/-!
# KoToolBox (libs/ui/toolbox/KoToolBox.cpp): a shallow embedding

The tool palette keeps its bookkeeping in `KoToolBox::Private` and drives a
number of toolkit objects (buttons, sections, menu actions).  The embedding
keeps the private members as fields of one record and represents every
object pointer by a natural number that indexes a store of object records;
`new` takes the next unused index.  Nullable pointers are `Option`s.

A toolkit object is the record of the properties this file sets on it or
reads from it, and a setter call stores its argument.  What the toolkit
does on its own after a property changed (an exclusive group unchecking a
sibling, a hidden ancestor hiding a child) happens outside this file and is
not modelled.  Painting (`paintEvent`), palette recolouring
(`setHighlightColor`, `changeEvent`), layout invalidation and repaint
requests do not touch any modelled field and are left out.

Values read from the surroundings (application name, screens, active tool
id, the state of a freshly constructed button, the persisted configuration
entry) are explicit arguments.
-/

namespace KoToolBoxModel

/-! ## Strings, integers, geometry -/

/-- A `QString`, as its sequence of characters. -/
abbrev QString := List Char

/-- The `QString` with the characters of a literal. -/
def qs (s : String) : QString := s.toList

/-- Model of `QString::startsWith`. -/
def startsWith (s p : QString) : Bool := p.isPrefixOf s

/-- Model of `QString::endsWith`. -/
def endsWith (s p : QString) : Bool := p.isSuffixOf s

/-- Model of `QString::contains(const QString &)`: `p` occurs somewhere in `s`
(the empty string occurs in every string). -/
def contains (s p : QString) : Bool := s.tails.any (fun t => p.isPrefixOf t)

/-- A C++ `int` result: two's complement reduction to 32 bits. -/
def int32 (x : Int) : Int := (x + 2147483648) % 4294967296 - 2147483648

/-- Model of `QRect`: the corner coordinates Qt stores. -/
structure QRect where
  x1 : Int
  y1 : Int
  x2 : Int
  y2 : Int
deriving DecidableEq, Repr

/-- Model of `QRect::width()`, which is `x2 - x1 + 1`. -/
def QRect.width (r : QRect) : Int := int32 (r.x2 - r.x1 + 1)

/-- Model of `QScreen`, reduced to what `buttonSize` reads. -/
structure QScreen where
  availableGeometry : QRect
deriving DecidableEq, Repr

/-- The margin constant, `#define BUTTON_MARGIN 10`. -/
def BUTTON_MARGIN : Int := 10

/-- Model of `static int buttonSize(int screen)`; `screens` is
`QGuiApplication::screens()`.  The macro
`KIS_SAFE_ASSERT_RECOVER_RETURN_VALUE(c, 16)` comes from kis_assert.h, which
is not among the sources; as its name says, it makes the function return 16
when `c` is false.  The `none` branch of the lookup is never taken, since
the index has been checked. -/
def buttonSize (screens : List QScreen) (screen : Int) : Int :=
  if ¬ (screen < (screens.length : Int) ∧ screen ≥ 0) then 16
  else
    match screens.get? screen.toNat with
    | none => 16
    | some sc =>
      let rc := sc.availableGeometry
      if rc.width ≤ 1024 then 12
      else if rc.width ≤ 1377 then 14
      else if rc.width ≤ 1920 then 16
      else 22

/-- The screen-width bucket function of the icon-size default. -/
def widthBucket (w : Int) : Int :=
  if w ≤ 1024 then 12 else if w ≤ 1377 then 14 else if w ≤ 1920 then 16 else 22


/-! ## Containers -/

/-- Model of `QHash::value(key)` and `QMap::value(key)`; `none` stands for the
default-constructed value returned for a missing key. -/
def mapValue {K V : Type} [DecidableEq K] (k : K) : List (K × V) → Option V
  | [] => none
  | (k', v) :: m => if k' = k then some v else mapValue k m

/-- Model of `QHash::insert` and `QMap::insert`: the value of an existing key is
replaced, a new key is added. -/
def mapInsert {K V : Type} [DecidableEq K] (k : K) (v : V) :
    List (K × V) → List (K × V)
  | [] => [(k, v)]
  | (k', v') :: m => if k' = k then (k, v) :: m else (k', v') :: mapInsert k v m

/-- Model of `QHash::keys()`. -/
def mapKeys {K V : Type} (m : List (K × V)) : List K := m.map Prod.fst

/-- Model of `QMap::values()`. -/
def mapValues {K V : Type} (m : List (K × V)) : List V := m.map Prod.snd

/-- Model of `QMap::key(value)`: the first key mapped to `v`, `none` for the default
key. -/
def mapKey {K V : Type} [DecidableEq V] (v : V) : List (K × V) → Option K
  | [] => none
  | (k, v') :: m => if v' = v then some k else mapKey v m

/-- Store update: the object at `p` becomes `v`. -/
def setAt {α : Type} (f : Nat → α) (p : Nat) (v : α) : Nat → α :=
  fun q => if q = p then v else f q

/-! ## Toolkit objects -/

/-- Model of `QSize`. -/
structure QSize where
  width : Int
  height : Int
deriving DecidableEq, Repr

/-- Model of `Qt::Orientation`. -/
inductive Orientation where
  | Horizontal
  | Vertical
deriving DecidableEq, Repr

/-- The properties of a tool button (`QToolButton`, `KoToolBoxButton`) that
this file sets. -/
structure QToolButton where
  visible : Bool
  enabled : Bool
  checked : Bool
  iconSize : QSize
deriving DecidableEq, Repr

/-- Modelled from the spec: `Section` is declared in KoToolBoxLayout_p.h,
which is not among the sources.  A section is a named grouping of tool
buttons; it is kept as the record of the calls this file makes on it:
`setName`, `setButtonSize`, `addButton(button, priority)`,
`setOrientation`. -/
structure Section where
  name : QString
  buttonSize : QSize
  buttons : List (Nat × Int)
  orientation : Orientation
deriving DecidableEq, Repr

/-- Modelled from the spec: the `Section` constructor is not among the
sources.  A new section has no name and no buttons yet. -/
def Section.fresh : Section :=
  { name := [], buttonSize := ⟨-1, -1⟩, buttons := [], orientation := Orientation.Vertical }

/-- The properties of a menu action that this file sets. -/
structure QAction where
  checkable : Bool
  checked : Bool
  actionGroup : Option Nat
deriving DecidableEq, Repr

/-- An action as `QMenu::addAction` returns it. -/
def QAction.fresh : QAction :=
  { checkable := false, checked := false, actionGroup := none }

/-- Modelled from the spec: `KoToolBoxLayout` (KoToolBoxLayout_p.h) is not
among the sources.  It is kept as the sections added to it and its
orientation. -/
structure KoToolBoxLayout where
  sections : List Nat
  orientation : Orientation
deriving DecidableEq, Repr

/-- Modelled from the spec: `KoToolAction` is not among the sources.  It is
the descriptor of a selectable tool: id, section, priority, visibility code
(`section()` is the field `toolSection`). -/
structure KoToolAction where
  id : QString
  toolSection : QString
  priority : Int
  visibilityCode : QString
deriving DecidableEq, Repr

/-- Model of `KoShapeLayer`, reduced to what `setCurrentLayer` reads. -/
structure KoShapeLayer where
  isShapeEditable : Bool
  isVisible : Bool
deriving DecidableEq, Repr

/-! ## The tool box -/

/-- Model of `KoToolBox::Private` together with the stores of the objects it points
to and the persisted `iconSize` entry of the `KoToolBox` config group. -/
structure KoToolBox where
  buttons : List Nat
  selectedButton : Option Nat
  buttonsByToolId : List (QString × Nat)
  sections : List (QString × Nat)
  layout : KoToolBoxLayout
  buttonGroup : List Nat
  visibilityCodes : List (Nat × QString)
  floating : Bool
  iconSize : Int
  contextIconSizes : List (Nat × Int)
  defaultIconSizeAction : Option Nat
  orientation : Orientation
  buttonWidgets : Nat → QToolButton
  nextButton : Nat
  sectionWidgets : Nat → Section
  nextSection : Nat
  actions : Nat → QAction
  nextAction : Nat
  nextActionGroup : Nat
  config : Option Int

/-- Model of `button->setVisible(v)`. -/
def setVisible (w : Nat → QToolButton) (button : Nat) (v : Bool) : Nat → QToolButton :=
  setAt w button { w button with visible := v }

/-- Model of `button->setEnabled(v)`. -/
def setEnabled (w : Nat → QToolButton) (button : Nat) (v : Bool) : Nat → QToolButton :=
  setAt w button { w button with enabled := v }

/-- Model of `button->setChecked(v)`. -/
def setChecked (w : Nat → QToolButton) (button : Nat) (v : Bool) : Nat → QToolButton :=
  setAt w button { w button with checked := v }

/-- Model of `button->setIconSize(sz)`. -/
def setIconSize (w : Nat → QToolButton) (button : Nat) (sz : QSize) : Nat → QToolButton :=
  setAt w button { w button with iconSize := sz }

/-- Model of `KoToolBox::Private::addSection(section, name)`. -/
def Private.addSection (sec : Nat) (name : QString) (d : KoToolBox) : KoToolBox :=
  { d with
    sectionWidgets := setAt d.sectionWidgets sec { d.sectionWidgets sec with name := name }
    layout := { d.layout with sections := d.layout.sections ++ [sec] }
    sections := mapInsert name sec d.sections }

/-- Model of `new Section(this)`: the next unused section index, holding a fresh
section. -/
def newSection (d : KoToolBox) : Nat × KoToolBox :=
  (d.nextSection,
   { d with
     nextSection := d.nextSection + 1
     sectionWidgets := setAt d.sectionWidgets d.nextSection Section.fresh })

/-- Model of `KoToolBox::applyIconSize()`. -/
def applyIconSize (d : KoToolBox) : KoToolBox :=
  let d := { d with
    buttonWidgets := d.buttons.foldl
      (fun w button => setIconSize w button ⟨d.iconSize, d.iconSize⟩) d.buttonWidgets }
  { d with
    sectionWidgets := (mapValues d.sections).foldl
      (fun w sec => setAt w sec { w sec with
        buttonSize := ⟨int32 (d.iconSize + BUTTON_MARGIN), int32 (d.iconSize + BUTTON_MARGIN)⟩ })
      d.sectionWidgets }

/-- The name that `addButton` computes into `sectionToBeAddedTo`;
`applicationName` is `qApp->applicationName()`. -/
def sectionToBeAddedTo (applicationName : QString) (sec : QString) : QString :=
  if contains sec applicationName then qs "main"
  else if contains sec (qs "main") then qs "main"
  else if contains sec (qs "dynamic") then qs "dynamic"
  else sec

/-- The section widget `addButton` adds to: the one registered under
`name`, or a new one registered under `name` when the lookup gives null. -/
def sectionWidgetFor (name : QString) (d : KoToolBox) : Nat × KoToolBox :=
  match mapValue name d.sections with
  | some sectionWidget => (sectionWidget, d)
  | none =>
    let r := newSection d
    (r.1, Private.addSection r.1 name r.2)

/-- Model of `KoToolBox::addButton(toolAction)`; `init` is the state in which
`new KoToolBoxButton(toolAction, this)` leaves the new button. -/
def addButton (applicationName : QString) (init : QToolButton) (toolAction : KoToolAction)
    (d : KoToolBox) : KoToolBox :=
  let button := d.nextButton
  let d := { d with
    nextButton := button + 1
    buttonWidgets := setAt d.buttonWidgets button init }
  let d := { d with buttons := d.buttons ++ [button] }
  let r := sectionWidgetFor (sectionToBeAddedTo applicationName toolAction.toolSection) d
  let sectionWidget := r.1
  let d := r.2
  let d := { d with
    sectionWidgets := setAt d.sectionWidgets sectionWidget
      { d.sectionWidgets sectionWidget with
        buttons := (d.sectionWidgets sectionWidget).buttons ++ [(button, toolAction.priority)] } }
  let d := { d with buttonGroup := d.buttonGroup ++ [button] }
  let d := { d with buttonsByToolId := mapInsert toolAction.id button d.buttonsByToolId }
  { d with visibilityCodes := mapInsert button toolAction.visibilityCode d.visibilityCodes }

/-- Model of `KoToolBox::setActiveTool(canvas)`; `activeToolId` is
`KoToolManager::instance()->activeToolId()`. -/
def setActiveTool (activeToolId : QString) (d : KoToolBox) : KoToolBox :=
  match mapValue activeToolId d.buttonsByToolId with
  | some button =>
    { d with
      buttonWidgets := setChecked d.buttonWidgets button true
      selectedButton := some button }
  | none => d

/-- The body of the loop of `setButtonsVisible` for one button. -/
def setButtonsVisibleBody (codes : List QString) (visibilityCodes : List (Nat × QString))
    (w : Nat → QToolButton) (button : Nat) : Nat → QToolButton :=
  let code := (mapValue button visibilityCodes).getD []
  if startsWith code (qs "flake/") then w
  else if endsWith code (qs "/always") then
    setEnabled (setVisible w button true) button true
  else if code.isEmpty then
    setEnabled (setVisible w button true) button (codes.length != 0)
  else
    setVisible w button (codes.contains code)

/-- Model of `KoToolBox::setButtonsVisible(codes)`. -/
def setButtonsVisible (codes : List QString) (d : KoToolBox) : KoToolBox :=
  { d with
    buttonWidgets := (mapKeys d.visibilityCodes).foldl
      (setButtonsVisibleBody codes d.visibilityCodes) d.buttonWidgets }

/-- The body of the loop of `setCurrentLayer` for one button. -/
def setCurrentLayerBody (enabled : Bool) (visibilityCodes : List (Nat × QString))
    (w : Nat → QToolButton) (button : Nat) : Nat → QToolButton :=
  if endsWith ((mapValue button visibilityCodes).getD []) (qs "/always") then w
  else setEnabled w button enabled

/-- Model of `KoToolBox::setCurrentLayer(canvas, layer)`; `none` is the null layer. -/
def setCurrentLayer (layer : Option KoShapeLayer) (d : KoToolBox) : KoToolBox :=
  let enabled : Bool :=
    match layer with
    | none => true
    | some l => l.isShapeEditable && l.isVisible
  { d with
    buttonWidgets := (mapKeys d.visibilityCodes).foldl
      (setCurrentLayerBody enabled d.visibilityCodes) d.buttonWidgets }

/-- Model of `KoToolBox::setOrientation(orientation)`. -/
def setOrientation (orientation : Orientation) (d : KoToolBox) : KoToolBox :=
  { d with
    orientation := orientation
    layout := { d.layout with orientation := orientation }
    sectionWidgets := (mapValues d.sections).foldl
      (fun w sec => setAt w sec { w sec with orientation := orientation }) d.sectionWidgets }

/-- Model of `KoToolBox::setFloating(v)`. -/
def setFloating (v : Bool) (d : KoToolBox) : KoToolBox :=
  { d with floating := v }

/-- Model of `KoToolBox::toolAdded(toolAction, canvas)`. -/
def toolAdded (applicationName : QString) (init : QToolButton) (toolAction : KoToolAction)
    (d : KoToolBox) : KoToolBox :=
  setButtonsVisible [] (addButton applicationName init toolAction d)

/-- Model of `KoToolBox::setViewManager(viewManager)`; `toolActionList` is the tool
manager's list and `attachAction id` is what
`KoToolBoxButton::attachAction` does to the button of tool `id`. -/
def setViewManager (attachAction : QString → QToolButton → QToolButton)
    (toolActionList : List KoToolAction) (d : KoToolBox) : KoToolBox :=
  { d with
    buttonWidgets := toolActionList.foldl
      (fun w toolAction =>
        match mapValue toolAction.id d.buttonsByToolId with
        | none => w
        | some button => setAt w button (attachAction toolAction.id (w button)))
      d.buttonWidgets }

/-- Model of `KoToolBox::slotContextIconSize()`; `sender` is
`qobject_cast<QAction*>(sender())` and `widgetsScreen` is
`KisPortingUtils::getScreenNumberForWidget(QApplication::activeWindow())`.
`KIS_SAFE_ASSERT_RECOVER(c) { ... }` runs its block when `c` is false. -/
def slotContextIconSize (sender : Option Nat) (screens : List QScreen) (widgetsScreen : Int)
    (d : KoToolBox) : KoToolBox :=
  match sender with
  | none => d
  | some action =>
    let r : Int × KoToolBox :=
      if some action = d.defaultIconSizeAction then
        let iconSize := buttonSize screens widgetsScreen
        match mapKey iconSize d.contextIconSizes with
        | some a =>
          (iconSize, { d with actions := setAt d.actions a { d.actions a with checked := true } })
        | none => (iconSize, d)
      else
        match mapValue action d.contextIconSizes with
        | some v => (v, d)
        | none => (-1, d)
    let iconSize := if r.1 ≥ 0 then r.1 else 16
    applyIconSize { r.2 with config := some iconSize, iconSize := iconSize }

/-- The body of the loop of `setupIconSizeMenu` for one size. -/
def setupIconSizeMenuBody (sizeGroup : Nat) (d : KoToolBox) (i : Int) : KoToolBox :=
  let action := d.nextAction
  let d := { d with
    nextAction := action + 1
    actions := setAt d.actions action QAction.fresh }
  let d := { d with contextIconSizes := mapInsert action i d.contextIconSizes }
  let d := { d with
    actions := setAt d.actions action { d.actions action with actionGroup := some sizeGroup } }
  let d := { d with
    actions := setAt d.actions action { d.actions action with checkable := true } }
  if d.iconSize = i then
    { d with actions := setAt d.actions action { d.actions action with checked := true } }
  else d

/-- Model of `KoToolBox::setupIconSizeMenu(menu)`. -/
def setupIconSizeMenu (d : KoToolBox) : KoToolBox :=
  if d.contextIconSizes.isEmpty then
    let d := { d with
      defaultIconSizeAction := some d.nextAction
      nextAction := d.nextAction + 1
      actions := setAt d.actions d.nextAction QAction.fresh }
    let sizeGroup := d.nextActionGroup
    let d := { d with nextActionGroup := sizeGroup + 1 }
    [12, 14, 16, 22, 32, 48, 64].foldl (setupIconSizeMenuBody sizeGroup) d
  else d

/-- The members of a `Private` right after `new Private`, with empty object
stores and the given persisted entry. -/
def Private.fresh (config : Option Int) : KoToolBox :=
  { buttons := []
    selectedButton := none
    buttonsByToolId := []
    sections := []
    layout := { sections := [], orientation := Orientation.Vertical }
    buttonGroup := []
    visibilityCodes := []
    floating := false
    iconSize := 0
    contextIconSizes := []
    defaultIconSizeAction := none
    orientation := Orientation.Vertical
    buttonWidgets := fun _ => ⟨false, true, false, ⟨-1, -1⟩⟩
    nextButton := 0
    sectionWidgets := fun _ => Section.fresh
    nextSection := 0
    actions := fun _ => QAction.fresh
    nextAction := 0
    nextActionGroup := 0
    config := config }

/-- Model of `KoToolBox::KoToolBox()`; `init toolAction` is the state of the button
constructed for `toolAction`, `config` the persisted `iconSize` entry. -/
def KoToolBox.new (applicationName : QString) (init : KoToolAction → QToolButton)
    (widgetsScreen : Int) (screens : List QScreen) (config : Option Int)
    (toolActionList : List KoToolAction) : KoToolBox :=
  let d := Private.fresh config
  let r := newSection d
  let d := Private.addSection r.1 (qs "main") r.2
  let r := newSection d
  let d := Private.addSection r.1 (qs "dynamic") r.2
  let primaryScreen : Int := 0
  let screen : Int :=
    if widgetsScreen ≥ 0 ∧ widgetsScreen < (screens.length : Int) then widgetsScreen
    else primaryScreen
  let toolbuttonSize := buttonSize screens screen
  let d := { d with iconSize := config.getD toolbuttonSize }
  let d := toolActionList.foldl
    (fun d toolAction => addButton applicationName (init toolAction) toolAction d) d
  let d := applyIconSize d
  setButtonsVisible [] d

/-- The calls the tool box can receive after construction. -/
inductive Op where
  | addButton (applicationName : QString) (init : QToolButton) (toolAction : KoToolAction)
  | toolAdded (applicationName : QString) (init : QToolButton) (toolAction : KoToolAction)
  | setActiveTool (activeToolId : QString)
  | setButtonsVisible (codes : List QString)
  | setCurrentLayer (layer : Option KoShapeLayer)
  | applyIconSize
  | slotContextIconSize (sender : Option Nat) (screens : List QScreen) (widgetsScreen : Int)
  | setupIconSizeMenu
  | setOrientation (orientation : Orientation)
  | setFloating (v : Bool)
  | setViewManager (attachAction : QString → QToolButton → QToolButton)
      (toolActionList : List KoToolAction)

/-- The effect of one call. -/
def Op.run : Op → KoToolBox → KoToolBox
  | Op.addButton a i t => KoToolBoxModel.addButton a i t
  | Op.toolAdded a i t => KoToolBoxModel.toolAdded a i t
  | Op.setActiveTool id => KoToolBoxModel.setActiveTool id
  | Op.setButtonsVisible codes => KoToolBoxModel.setButtonsVisible codes
  | Op.setCurrentLayer layer => KoToolBoxModel.setCurrentLayer layer
  | Op.applyIconSize => KoToolBoxModel.applyIconSize
  | Op.slotContextIconSize sender screens ws => KoToolBoxModel.slotContextIconSize sender screens ws
  | Op.setupIconSizeMenu => KoToolBoxModel.setupIconSizeMenu
  | Op.setOrientation o => KoToolBoxModel.setOrientation o
  | Op.setFloating v => KoToolBoxModel.setFloating v
  | Op.setViewManager f l => KoToolBoxModel.setViewManager f l

/-- The states the constructor and any sequence of later calls produce. -/
inductive Reachable : KoToolBox → Prop where
  | init (applicationName : QString) (init : KoToolAction → QToolButton) (widgetsScreen : Int)
      (screens : List QScreen) (config : Option Int) (toolActionList : List KoToolAction) :
      Reachable (KoToolBox.new applicationName init widgetsScreen screens config toolActionList)
  | step (op : Op) (d : KoToolBox) : Reachable d → Reachable (op.run d)

/-! ## Derived notions used in the statements -/

/-- The visibility code recorded for a button:
`d->visibilityCodes.value(button)`. -/
def visibilityCode (d : KoToolBox) (button : Nat) : QString :=
  (mapValue button d.visibilityCodes).getD []

/-- A button is registered when `d->visibilityCodes` has it as a key. -/
abbrev registered (d : KoToolBox) (button : Nat) : Prop :=
  button ∈ mapKeys d.visibilityCodes

/-- What `setButtonsVisible` does to the state of one button with
visibility code `code`. -/
def visibleChange (codes : List QString) (code : QString) (x : QToolButton) : QToolButton :=
  if startsWith code (qs "flake/") then x
  else if endsWith code (qs "/always") then { x with visible := true, enabled := true }
  else if code.isEmpty then { x with visible := true, enabled := (codes.length != 0) }
  else { x with visible := codes.contains code }

/-- What `setCurrentLayer` does to the state of one button with visibility
code `code`. -/
def layerChange (enabled : Bool) (code : QString) (x : QToolButton) : QToolButton :=
  if endsWith code (qs "/always") then x else { x with enabled := enabled }

/-- The value `setCurrentLayer` computes into `enabled`. -/
def layerEnabled (layer : Option KoShapeLayer) : Bool :=
  match layer with
  | none => true
  | some l => l.isShapeEditable && l.isVisible

/-- Bookkeeping of the buttons: the keys of `visibilityCodes` are the
buttons of the button list, every button stored in `buttonsByToolId` is in
the button list, and every button of the list has been allocated. -/
def ButtonsInv (d : KoToolBox) : Prop :=
  (∀ b, b ∈ mapKeys d.visibilityCodes ↔ b ∈ d.buttons) ∧
  (∀ id b, mapValue id d.buttonsByToolId = some b → b ∈ d.buttons) ∧
  (∀ b, b ∈ d.buttons → b < d.nextButton)

/-- Bookkeeping of the sections: a section registered under a name has been
allocated and carries that name, and "main" and "dynamic" are registered. -/
def SectionsInv (d : KoToolBox) : Prop :=
  (∀ n p, mapValue n d.sections = some p →
    p < d.nextSection ∧ (d.sectionWidgets p).name = n) ∧
  (mapValue (qs "main") d.sections).isSome = true ∧
  (mapValue (qs "dynamic") d.sections).isSome = true

/-- The sizes offered by the icon-size menu. -/
def menuSizes : List Int := [12, 14, 16, 22, 32, 48, 64]

/-- Bookkeeping of the icon-size menu: every mapped size is a menu size,
mapped actions have been allocated, and the Default action is allocated and
not mapped to a size. -/
def ActionsInv (d : KoToolBox) : Prop :=
  (∀ a v, mapValue a d.contextIconSizes = some v → v ∈ menuSizes ∧ a < d.nextAction) ∧
  (∀ a, d.defaultIconSizeAction = some a →
    a < d.nextAction ∧ mapValue a d.contextIconSizes = none)

/-- The three invariants together. -/
def Inv (d : KoToolBox) : Prop := ButtonsInv d ∧ SectionsInv d ∧ ActionsInv d

/-- The icon size `slotContextIconSize` settles on for a non-null sender:
the local `iconSize` after the recovering assertion. -/
def chosenIconSize (action : Nat) (screens : List QScreen) (widgetsScreen : Int)
    (d : KoToolBox) : Int :=
  let r : Int :=
    if some action = d.defaultIconSizeAction then buttonSize screens widgetsScreen
    else
      match mapValue action d.contextIconSizes with
      | some v => v
      | none => -1
  if r ≥ 0 then r else 16

/-! ## Worked states -/

/-- A button as the toolkit hands it over: not shown yet, enabled, not
checked, no icon size set. -/
def hiddenButton : QToolButton := ⟨false, true, false, ⟨-1, -1⟩⟩

/-- Four tools: one visible under "flake/always", one with an empty code,
one tied to a shape id, one with a plain "/always" code. -/
def exampleTools : List KoToolAction :=
  [ ⟨qs "KritaShape/KisToolBrush", qs "main", 0, qs "flake/always"⟩,
    ⟨qs "InteractionTool", qs "main", 1, qs ""⟩,
    ⟨qs "PathTool", qs "dynamic", 2, qs "KoPathShape"⟩,
    ⟨qs "PanTool", qs "navigation", 3, qs "tool/always"⟩ ]

/-- The tool box constructed for `exampleTools` on one full-HD screen with
no persisted icon size. -/
def exampleBox : KoToolBox :=
  KoToolBox.new (qs "krita") (fun _ => hiddenButton) 0 [⟨⟨0, 0, 1919, 1079⟩⟩] none exampleTools

/-- The tool box constructed for a single tool whose code is "flake/edit",
which starts with "flake/" and does not end with "/always". -/
def flakeEditBox : KoToolBox :=
  KoToolBox.new (qs "krita") (fun _ => hiddenButton) 0 [⟨⟨0, 0, 1919, 1079⟩⟩] none
    [⟨qs "SvgTextTool", qs "main", 0, qs "flake/edit"⟩]

/-- The state of `exampleBox` after its icon-size menu has been set up. -/
def exampleBoxWithMenu : KoToolBox := Op.setupIconSizeMenu.run exampleBox

/-! ## Stores and loops -/

theorem setAt_same {α : Type} (f : Nat → α) (p : Nat) (v : α) : setAt f p v p = v := by
  simp [setAt]

theorem setAt_other {α : Type} (f : Nat → α) (p q : Nat) (v : α) (h : q ≠ p) :
    setAt f p v q = f q := by
  simp [setAt, h]

theorem setAt_self {α : Type} (f : Nat → α) (p : Nat) : setAt f p (f p) = f := by
  funext q
  by_cases h : q = p
  · subst h; simp [setAt]
  · simp [setAt, h]

theorem setAt_setAt {α : Type} (f : Nat → α) (p : Nat) (v v' : α) :
    setAt (setAt f p v) p v' = setAt f p v' := by
  funext q
  by_cases h : q = p <;> simp [setAt, h]

/-- A loop whose body rewrites only the visited object, by an idempotent
change `g`, changes exactly the visited objects, each by `g`. -/
theorem foldl_setAt_apply {α : Type} (g : Nat → α → α)
    (hg : ∀ k x, g k (g k x) = g k x) (ks : List Nat) (w : Nat → α) (b : Nat) :
    (ks.foldl (fun w k => setAt w k (g k (w k))) w) b = if b ∈ ks then g b (w b) else w b := by
  induction ks generalizing w with
  | nil => simp
  | cons k ks ih =>
    rw [List.foldl_cons, ih]
    by_cases hk : b = k
    · subst hk
      simp [setAt_same, hg]
    · have hne : ¬ k = b := fun h => hk h.symm
      simp [setAt_other _ _ _ _ hk, hk]

theorem setButtonsVisibleBody_eq (codes : List QString) (vc : List (Nat × QString))
    (w : Nat → QToolButton) (button : Nat) :
    setButtonsVisibleBody codes vc w button =
      setAt w button (visibleChange codes ((mapValue button vc).getD []) (w button)) := by
  unfold setButtonsVisibleBody visibleChange
  simp only []
  split_ifs
  · exact (setAt_self w button).symm
  · simp [setEnabled, setVisible, setAt_setAt, setAt_same]
  · simp [setEnabled, setVisible, setAt_setAt, setAt_same]
  · simp [setVisible]

theorem visibleChange_idem (codes : List QString) (code : QString) (x : QToolButton) :
    visibleChange codes code (visibleChange codes code x) = visibleChange codes code x := by
  unfold visibleChange
  split_ifs <;> rfl

/-- The state of a button after `setButtonsVisible`. -/
theorem setButtonsVisible_apply (codes : List QString) (d : KoToolBox) (b : Nat) :
    (setButtonsVisible codes d).buttonWidgets b =
      if b ∈ mapKeys d.visibilityCodes then
        visibleChange codes (visibilityCode d b) (d.buttonWidgets b)
      else d.buttonWidgets b := by
  have hbody : setButtonsVisibleBody codes d.visibilityCodes =
      fun w k => setAt w k
        ((fun k x => visibleChange codes ((mapValue k d.visibilityCodes).getD []) x) k (w k)) := by
    funext w k
    exact setButtonsVisibleBody_eq codes d.visibilityCodes w k
  show ((mapKeys d.visibilityCodes).foldl
      (setButtonsVisibleBody codes d.visibilityCodes) d.buttonWidgets) b = _
  rw [hbody]
  exact foldl_setAt_apply
    (fun k x => visibleChange codes ((mapValue k d.visibilityCodes).getD []) x)
    (fun k x => visibleChange_idem codes _ x) _ _ b

theorem setCurrentLayerBody_eq (enabled : Bool) (vc : List (Nat × QString))
    (w : Nat → QToolButton) (button : Nat) :
    setCurrentLayerBody enabled vc w button =
      setAt w button (layerChange enabled ((mapValue button vc).getD []) (w button)) := by
  unfold setCurrentLayerBody layerChange
  split_ifs
  · exact (setAt_self w button).symm
  · simp [setEnabled]

/-- The state of a button after `setCurrentLayer`. -/
theorem setCurrentLayer_apply (layer : Option KoShapeLayer) (d : KoToolBox) (b : Nat) :
    (setCurrentLayer layer d).buttonWidgets b =
      if b ∈ mapKeys d.visibilityCodes then
        layerChange (layerEnabled layer) (visibilityCode d b) (d.buttonWidgets b)
      else d.buttonWidgets b := by
  have hbody : setCurrentLayerBody (layerEnabled layer) d.visibilityCodes =
      fun w k => setAt w k
        ((fun k x => layerChange (layerEnabled layer)
          ((mapValue k d.visibilityCodes).getD []) x) k (w k)) := by
    funext w k
    exact setCurrentLayerBody_eq _ d.visibilityCodes w k
  show ((mapKeys d.visibilityCodes).foldl
      (setCurrentLayerBody (layerEnabled layer) d.visibilityCodes) d.buttonWidgets) b = _
  rw [hbody]
  refine foldl_setAt_apply
    (fun k x => layerChange (layerEnabled layer) ((mapValue k d.visibilityCodes).getD []) x)
    ?_ _ _ b
  intro k x
  simp only [layerChange]
  split_ifs <;> rfl

/-! ## Container facts -/

theorem mapValue_mapInsert {K V : Type} [DecidableEq K] (k k' : K) (v : V) (m : List (K × V)) :
    mapValue k' (mapInsert k v m) = if k' = k then some v else mapValue k' m := by
  induction m with
  | nil =>
    by_cases h : k' = k
    · simp [mapInsert, mapValue, h]
    · have h' : ¬ k = k' := fun e => h e.symm
      simp [mapInsert, mapValue, h, h']
  | cons e m ih =>
    obtain ⟨a, x⟩ := e
    by_cases ha : a = k
    · by_cases h : k' = k
      · simp [mapInsert, mapValue, ha, h]
      · have h' : ¬ k = k' := fun e => h e.symm
        simp [mapInsert, mapValue, ha, h, h']
    · by_cases h : k' = k
      · subst h
        simp [mapInsert, mapValue, ha, ih]
      · simp [mapInsert, mapValue, ha, ih, h]

theorem mem_mapKeys_mapInsert {K V : Type} [DecidableEq K] (k k' : K) (v : V) (m : List (K × V)) :
    k' ∈ mapKeys (mapInsert k v m) ↔ k' = k ∨ k' ∈ mapKeys m := by
  induction m with
  | nil => simp [mapInsert, mapKeys]
  | cons e m ih =>
    obtain ⟨a, x⟩ := e
    by_cases ha : a = k
    · subst ha
      simp [mapInsert, mapKeys]
    · have ih' : k' ∈ List.map Prod.fst (mapInsert k v m) ↔ k' = k ∨ k' ∈ List.map Prod.fst m := ih
      simp only [mapInsert, mapKeys, ha, if_false, List.map_cons, List.mem_cons, ih']
      tauto

theorem mapValue_isSome_iff {K V : Type} [DecidableEq K] (k : K) (m : List (K × V)) :
    (mapValue k m).isSome = true ↔ k ∈ mapKeys m := by
  induction m with
  | nil => simp [mapValue, mapKeys]
  | cons e m ih =>
    obtain ⟨a, x⟩ := e
    have ih' : (mapValue k m).isSome = true ↔ k ∈ List.map Prod.fst m := ih
    by_cases ha : a = k
    · subst ha
      simp [mapValue, mapKeys]
    · have ha' : ¬ k = a := fun e => ha e.symm
      simp only [mapValue, mapKeys, ha, if_false, List.map_cons, List.mem_cons, ha', false_or, ih']

theorem mem_mapValues_of_mapValue {K V : Type} [DecidableEq K] (k : K) (v : V) (m : List (K × V))
    (h : mapValue k m = some v) : v ∈ mapValues m := by
  induction m with
  | nil => simp [mapValue] at h
  | cons e m ih =>
    obtain ⟨a, x⟩ := e
    by_cases ha : a = k
    · simp [mapValue, ha] at h
      simp [mapValues, h]
    · simp only [mapValue, ha, if_false] at h
      have := ih h
      simp only [mapValues, List.map_cons, List.mem_cons]
      exact Or.inr this

/-! ## What `addButton` does to each member -/

theorem sectionWidgetFor_rest (name : QString) (d : KoToolBox) :
    (sectionWidgetFor name d).2.buttons = d.buttons ∧
    (sectionWidgetFor name d).2.selectedButton = d.selectedButton ∧
    (sectionWidgetFor name d).2.buttonsByToolId = d.buttonsByToolId ∧
    (sectionWidgetFor name d).2.buttonGroup = d.buttonGroup ∧
    (sectionWidgetFor name d).2.visibilityCodes = d.visibilityCodes ∧
    (sectionWidgetFor name d).2.buttonWidgets = d.buttonWidgets ∧
    (sectionWidgetFor name d).2.nextButton = d.nextButton ∧
    (sectionWidgetFor name d).2.contextIconSizes = d.contextIconSizes ∧
    (sectionWidgetFor name d).2.defaultIconSizeAction = d.defaultIconSizeAction ∧
    (sectionWidgetFor name d).2.nextAction = d.nextAction := by
  unfold sectionWidgetFor
  split <;> simp [newSection, Private.addSection]

theorem addButton_buttons (a : QString) (i : QToolButton) (t : KoToolAction) (d : KoToolBox) :
    (addButton a i t d).buttons = d.buttons ++ [d.nextButton] := by
  simp [addButton, (sectionWidgetFor_rest _ _).1]

theorem addButton_nextButton (a : QString) (i : QToolButton) (t : KoToolAction)
    (d : KoToolBox) : (addButton a i t d).nextButton = d.nextButton + 1 := by
  simp [addButton, (sectionWidgetFor_rest _ _).2.2.2.2.2.2.1]

theorem addButton_buttonWidgets (a : QString) (i : QToolButton) (t : KoToolAction)
    (d : KoToolBox) : (addButton a i t d).buttonWidgets = setAt d.buttonWidgets d.nextButton i := by
  simp [addButton, (sectionWidgetFor_rest _ _).2.2.2.2.2.1]

theorem addButton_buttonsByToolId (a : QString) (i : QToolButton) (t : KoToolAction)
    (d : KoToolBox) :
    (addButton a i t d).buttonsByToolId = mapInsert t.id d.nextButton d.buttonsByToolId := by
  simp [addButton, (sectionWidgetFor_rest _ _).2.2.1]

theorem addButton_visibilityCodes (a : QString) (i : QToolButton) (t : KoToolAction)
    (d : KoToolBox) :
    (addButton a i t d).visibilityCodes =
      mapInsert d.nextButton t.visibilityCode d.visibilityCodes := by
  simp [addButton, (sectionWidgetFor_rest _ _).2.2.2.2.1]

theorem addButton_selectedButton (a : QString) (i : QToolButton) (t : KoToolAction)
    (d : KoToolBox) : (addButton a i t d).selectedButton = d.selectedButton := by
  simp [addButton, (sectionWidgetFor_rest _ _).2.1]

theorem addButton_actions (a : QString) (i : QToolButton) (t : KoToolAction) (d : KoToolBox) :
    (addButton a i t d).contextIconSizes = d.contextIconSizes ∧
    (addButton a i t d).defaultIconSizeAction = d.defaultIconSizeAction ∧
    (addButton a i t d).nextAction = d.nextAction := by
  simp [addButton, (sectionWidgetFor_rest _ _).2.2.2.2.2.2.2]

/-! ## Invariants of the reachable states -/

/-- A loop that rewrites one field of every visited section leaves the
names alone. -/
theorem foldl_section_name (g : Section → Section) (hg : ∀ x, g (g x) = g x)
    (hn : ∀ x, (g x).name = x.name) (l : List Nat) (w : Nat → Section) (p : Nat) :
    ((l.foldl (fun w sec => setAt w sec (g (w sec))) w) p).name = (w p).name := by
  rw [foldl_setAt_apply (fun _ x => g x) (fun _ x => hg x)]
  split_ifs
  · exact hn _
  · rfl

theorem applyIconSize_sectionWidgets_name (d : KoToolBox) (p : Nat) :
    ((applyIconSize d).sectionWidgets p).name = (d.sectionWidgets p).name :=
  foldl_section_name
    (fun x => { x with buttonSize :=
      ⟨int32 (d.iconSize + BUTTON_MARGIN), int32 (d.iconSize + BUTTON_MARGIN)⟩ })
    (fun _ => rfl) (fun _ => rfl) _ _ p

theorem setOrientation_sectionWidgets_name (o : Orientation) (d : KoToolBox) (p : Nat) :
    ((setOrientation o d).sectionWidgets p).name = (d.sectionWidgets p).name :=
  foldl_section_name (fun x => { x with orientation := o })
    (fun _ => rfl) (fun _ => rfl) _ _ p

theorem addButton_sections_some (a : QString) (i : QToolButton) (t : KoToolAction)
    (d : KoToolBox) (p : Nat)
    (h : mapValue (sectionToBeAddedTo a t.toolSection) d.sections = some p) :
    (addButton a i t d).sections = d.sections ∧
    (addButton a i t d).nextSection = d.nextSection ∧
    (addButton a i t d).sectionWidgets =
      setAt d.sectionWidgets p { d.sectionWidgets p with
        buttons := (d.sectionWidgets p).buttons ++ [(d.nextButton, t.priority)] } := by
  simp [addButton, sectionWidgetFor, h]

theorem addButton_sections_none (a : QString) (i : QToolButton) (t : KoToolAction)
    (d : KoToolBox) (h : mapValue (sectionToBeAddedTo a t.toolSection) d.sections = none) :
    (addButton a i t d).sections =
      mapInsert (sectionToBeAddedTo a t.toolSection) d.nextSection d.sections ∧
    (addButton a i t d).nextSection = d.nextSection + 1 ∧
    (addButton a i t d).sectionWidgets =
      setAt d.sectionWidgets d.nextSection
        { name := sectionToBeAddedTo a t.toolSection, buttonSize := ⟨-1, -1⟩,
          buttons := [(d.nextButton, t.priority)], orientation := Orientation.Vertical } := by
  simp [addButton, sectionWidgetFor, h, newSection, Private.addSection, setAt_same, setAt_setAt,
    Section.fresh]

theorem ButtonsInv_addButton (a : QString) (i : QToolButton) (t : KoToolAction)
    (d : KoToolBox) (h : ButtonsInv d) : ButtonsInv (addButton a i t d) := by
  obtain ⟨h1, h2, h3⟩ := h
  unfold ButtonsInv
  rw [addButton_buttons, addButton_visibilityCodes, addButton_buttonsByToolId,
    addButton_nextButton]
  refine ⟨?_, ?_, ?_⟩
  · intro b
    rw [mem_mapKeys_mapInsert, h1 b]
    simp [or_comm]
  · intro id b hb
    rw [mapValue_mapInsert] at hb
    split_ifs at hb with hid
    · cases hb
      simp
    · have := h2 id b hb
      simp [this]
  · intro b hb
    rw [List.mem_append] at hb
    rcases hb with hb | hb
    · exact Nat.lt_succ_of_lt (h3 b hb)
    · simp at hb
      omega

theorem SectionsInv_addButton (a : QString) (i : QToolButton) (t : KoToolAction)
    (d : KoToolBox) (h : SectionsInv d) : SectionsInv (addButton a i t d) := by
  obtain ⟨h1, h2, h3⟩ := h
  unfold SectionsInv
  cases hs : mapValue (sectionToBeAddedTo a t.toolSection) d.sections with
  | some p =>
    obtain ⟨e1, e2, e3⟩ := addButton_sections_some a i t d p hs
    rw [e1, e2, e3]
    refine ⟨?_, h2, h3⟩
    intro n q hq
    refine ⟨(h1 n q hq).1, ?_⟩
    by_cases hqp : q = p
    · subst hqp
      rw [setAt_same]
      exact (h1 n q hq).2
    · rw [setAt_other _ _ _ _ hqp]
      exact (h1 n q hq).2
  | none =>
    obtain ⟨e1, e2, e3⟩ := addButton_sections_none a i t d hs
    rw [e1, e2, e3]
    refine ⟨?_, ?_, ?_⟩
    · intro n q hq
      rw [mapValue_mapInsert] at hq
      split_ifs at hq with hn
      · cases hq
        subst hn
        rw [setAt_same]
        exact ⟨Nat.lt_succ_self _, rfl⟩
      · have hlt := (h1 n q hq).1
        have hne : q ≠ d.nextSection := Nat.ne_of_lt hlt
        rw [setAt_other _ _ _ _ hne]
        exact ⟨Nat.lt_succ_of_lt hlt, (h1 n q hq).2⟩
    · rw [mapValue_mapInsert]
      split_ifs
      · rfl
      · exact h2
    · rw [mapValue_mapInsert]
      split_ifs
      · rfl
      · exact h3

theorem ActionsInv_addButton (a : QString) (i : QToolButton) (t : KoToolAction)
    (d : KoToolBox) (h : ActionsInv d) : ActionsInv (addButton a i t d) := by
  obtain ⟨e1, e2, e3⟩ := addButton_actions a i t d
  unfold ActionsInv
  rw [e1, e2, e3]
  exact h

theorem Inv_addButton (a : QString) (i : QToolButton) (t : KoToolAction)
    (d : KoToolBox) (h : Inv d) : Inv (addButton a i t d) :=
  ⟨ButtonsInv_addButton a i t d h.1, SectionsInv_addButton a i t d h.2.1,
    ActionsInv_addButton a i t d h.2.2⟩

theorem Inv_setButtonsVisible (codes : List QString) (d : KoToolBox) (h : Inv d) :
    Inv (setButtonsVisible codes d) := h

theorem Inv_setCurrentLayer (layer : Option KoShapeLayer) (d : KoToolBox) (h : Inv d) :
    Inv (setCurrentLayer layer d) := h

theorem Inv_setFloating (v : Bool) (d : KoToolBox) (h : Inv d) : Inv (setFloating v d) := h

theorem Inv_setViewManager (f : QString → QToolButton → QToolButton) (l : List KoToolAction)
    (d : KoToolBox) (h : Inv d) : Inv (setViewManager f l d) := h

theorem Inv_setActiveTool (id : QString) (d : KoToolBox) (h : Inv d) :
    Inv (setActiveTool id d) := by
  unfold setActiveTool
  split
  · exact h
  · exact h

theorem Inv_applyIconSize (d : KoToolBox) (h : Inv d) : Inv (applyIconSize d) := by
  refine ⟨h.1, ?_, h.2.2⟩
  obtain ⟨h1, h2, h3⟩ := h.2.1
  refine ⟨?_, h2, h3⟩
  intro n p hp
  refine ⟨(h1 n p hp).1, ?_⟩
  rw [applyIconSize_sectionWidgets_name]
  exact (h1 n p hp).2

theorem Inv_setOrientation (o : Orientation) (d : KoToolBox) (h : Inv d) :
    Inv (setOrientation o d) := by
  refine ⟨h.1, ?_, h.2.2⟩
  obtain ⟨h1, h2, h3⟩ := h.2.1
  refine ⟨?_, h2, h3⟩
  intro n p hp
  refine ⟨(h1 n p hp).1, ?_⟩
  rw [setOrientation_sectionWidgets_name]
  exact (h1 n p hp).2

/-- For a non-null sender `slotContextIconSize` stores the chosen size in the
member and in the persisted entry, possibly checks a menu action, and
applies the size. -/
theorem slotContextIconSize_some (action : Nat) (screens : List QScreen) (widgetsScreen : Int)
    (d : KoToolBox) :
    ∃ acts, slotContextIconSize (some action) screens widgetsScreen d =
      applyIconSize { d with
        actions := acts
        config := some (chosenIconSize action screens widgetsScreen d)
        iconSize := chosenIconSize action screens widgetsScreen d } := by
  unfold slotContextIconSize chosenIconSize
  by_cases hdef : some action = d.defaultIconSizeAction
  · simp only [hdef, if_true]
    cases hk : mapKey (buttonSize screens widgetsScreen) d.contextIconSizes with
    | some a => exact ⟨_, rfl⟩
    | none => exact ⟨d.actions, rfl⟩
  · simp only [hdef, if_false]
    cases hv : mapValue action d.contextIconSizes with
    | some v => exact ⟨d.actions, rfl⟩
    | none => exact ⟨d.actions, rfl⟩

theorem Inv_slotContextIconSize (sender : Option Nat) (screens : List QScreen)
    (widgetsScreen : Int) (d : KoToolBox) (h : Inv d) :
    Inv (slotContextIconSize sender screens widgetsScreen d) := by
  cases sender with
  | none => exact h
  | some action =>
    obtain ⟨acts, e⟩ := slotContextIconSize_some action screens widgetsScreen d
    rw [e]
    exact Inv_applyIconSize _ h

/-- The members one pass of the size loop of `setupIconSizeMenu` keeps, and
what it does to the others. -/
theorem setupIconSizeMenuBody_members (g : Nat) (d : KoToolBox) (i : Int) :
    (setupIconSizeMenuBody g d i).visibilityCodes = d.visibilityCodes ∧
    (setupIconSizeMenuBody g d i).buttons = d.buttons ∧
    (setupIconSizeMenuBody g d i).buttonsByToolId = d.buttonsByToolId ∧
    (setupIconSizeMenuBody g d i).nextButton = d.nextButton ∧
    (setupIconSizeMenuBody g d i).sections = d.sections ∧
    (setupIconSizeMenuBody g d i).nextSection = d.nextSection ∧
    (setupIconSizeMenuBody g d i).sectionWidgets = d.sectionWidgets ∧
    (setupIconSizeMenuBody g d i).defaultIconSizeAction = d.defaultIconSizeAction ∧
    (setupIconSizeMenuBody g d i).contextIconSizes =
      mapInsert d.nextAction i d.contextIconSizes ∧
    (setupIconSizeMenuBody g d i).nextAction = d.nextAction + 1 := by
  unfold setupIconSizeMenuBody
  simp only []
  split_ifs <;> simp

theorem Inv_setupIconSizeMenuBody (g : Nat) (d : KoToolBox) (i : Int) (hi : i ∈ menuSizes)
    (h : Inv d) : Inv (setupIconSizeMenuBody g d i) := by
  obtain ⟨e1, e2, e3, e4, e5, e6, e7, e8, e9, e10⟩ := setupIconSizeMenuBody_members g d i
  obtain ⟨hb, hs, ha1, ha2⟩ := h
  refine ⟨?_, ?_, ?_, ?_⟩
  · unfold ButtonsInv
    rw [e1, e2, e3, e4]
    exact hb
  · unfold SectionsInv
    rw [e5, e6, e7]
    exact hs
  · intro a v hv
    rw [e9, mapValue_mapInsert] at hv
    rw [e10]
    split_ifs at hv with ha
    · cases hv
      subst ha
      exact ⟨hi, Nat.lt_succ_self _⟩
    · exact ⟨(ha1 a v hv).1, Nat.lt_succ_of_lt (ha1 a v hv).2⟩
  · intro a ha
    rw [e8] at ha
    rw [e9, e10, mapValue_mapInsert]
    have hlt := (ha2 a ha).1
    have hne : a ≠ d.nextAction := Nat.ne_of_lt hlt
    rw [if_neg hne]
    exact ⟨Nat.lt_succ_of_lt hlt, (ha2 a ha).2⟩

theorem Inv_foldl_setupIconSizeMenuBody (g : Nat) (l : List Int) (hl : ∀ i ∈ l, i ∈ menuSizes)
    (d : KoToolBox) (h : Inv d) : Inv (l.foldl (setupIconSizeMenuBody g) d) := by
  induction l generalizing d with
  | nil => exact h
  | cons i l ih =>
    rw [List.foldl_cons]
    apply ih
    · intro j hj
      exact hl j (List.mem_cons_of_mem _ hj)
    · exact Inv_setupIconSizeMenuBody g d i (hl i (List.mem_cons_self _ _)) h

theorem Inv_setupIconSizeMenu (d : KoToolBox) (h : Inv d) : Inv (setupIconSizeMenu d) := by
  unfold setupIconSizeMenu
  split_ifs with hempty
  · simp only []
    apply Inv_foldl_setupIconSizeMenuBody
    · intro i hi
      exact hi
    · have hnil : d.contextIconSizes = [] := by
        simpa using hempty
      refine ⟨h.1, h.2.1, ?_, ?_⟩
      · intro a v hv
        simp [hnil, mapValue] at hv
      · intro a ha
        simp only [Option.some.injEq] at ha
        subst ha
        simp [hnil, mapValue]
  · exact h

theorem Inv_run (op : Op) (d : KoToolBox) (h : Inv d) : Inv (op.run d) := by
  cases op with
  | addButton a i t => exact Inv_addButton a i t d h
  | toolAdded a i t => exact Inv_setButtonsVisible [] _ (Inv_addButton a i t d h)
  | setActiveTool id => exact Inv_setActiveTool id d h
  | setButtonsVisible codes => exact Inv_setButtonsVisible codes d h
  | setCurrentLayer layer => exact Inv_setCurrentLayer layer d h
  | applyIconSize => exact Inv_applyIconSize d h
  | slotContextIconSize sender screens ws => exact Inv_slotContextIconSize sender screens ws d h
  | setupIconSizeMenu => exact Inv_setupIconSizeMenu d h
  | setOrientation o => exact Inv_setOrientation o d h
  | setFloating v => exact Inv_setFloating v d h
  | setViewManager f l => exact Inv_setViewManager f l d h

theorem Inv_foldl_addButton (a : QString) (init : KoToolAction → QToolButton)
    (l : List KoToolAction) (d : KoToolBox) (h : Inv d) :
    Inv (l.foldl (fun d toolAction => addButton a (init toolAction) toolAction d) d) := by
  induction l generalizing d with
  | nil => exact h
  | cons t l ih =>
    rw [List.foldl_cons]
    exact ih _ (Inv_addButton a (init t) t d h)

theorem Inv_new (applicationName : QString) (init : KoToolAction → QToolButton)
    (widgetsScreen : Int) (screens : List QScreen) (config : Option Int)
    (toolActionList : List KoToolAction) :
    Inv (KoToolBox.new applicationName init widgetsScreen screens config toolActionList) := by
  unfold KoToolBox.new
  simp only []
  apply Inv_setButtonsVisible
  apply Inv_applyIconSize
  apply Inv_foldl_addButton
  refine ⟨?_, ?_, ?_⟩
  · refine ⟨?_, ?_, ?_⟩
    · intro b
      simp [Private.addSection, newSection, Private.fresh, mapKeys]
    · intro id b hb
      simp [Private.addSection, newSection, Private.fresh, mapValue] at hb
    · intro b hb
      simp [Private.addSection, newSection, Private.fresh] at hb
  · have hne : ¬ (qs "main" = qs "dynamic") := by decide
    refine ⟨?_, ?_, ?_⟩
    · intro n p hp
      simp only [Private.addSection, newSection, Private.fresh, mapInsert, mapValue, hne,
        if_false] at hp
      split_ifs at hp with h1 h2
      · cases hp
        subst h1
        simp [Private.addSection, newSection, Private.fresh, setAt]
      · cases hp
        subst h2
        simp [Private.addSection, newSection, Private.fresh, setAt]
    · simp [Private.addSection, newSection, Private.fresh, mapInsert, mapValue, hne]
    · simp [Private.addSection, newSection, Private.fresh, mapInsert, mapValue, hne]
  · refine ⟨?_, ?_⟩
    · intro a v hv
      simp [Private.addSection, newSection, Private.fresh, mapValue] at hv
    · intro a ha
      simp [Private.addSection, newSection, Private.fresh] at ha

/-- Every reachable state satisfies the invariants. -/
theorem Reachable.inv {d : KoToolBox} (h : Reachable d) : Inv d := by
  induction h with
  | init a i ws sc c l => exact Inv_new a i ws sc c l
  | step op d _ ih => exact Inv_run op d ih

/-! ## The icon-size default -/

theorem buttonSize_valid (l : List QScreen) (i : Nat) (sc : QScreen)
    (h : l.get? i = some sc) :
    buttonSize l (i : Int) = widthBucket sc.availableGeometry.width := by
  have hlt : i < l.length := by
    rcases Nat.lt_or_ge i l.length with h1 | h1
    · exact h1
    · rw [List.get?_eq_none.mpr h1] at h; cases h
  have hc : ((i : Int) < (l.length : Int) ∧ (i : Int) ≥ 0) := ⟨by exact_mod_cast hlt, by omega⟩
  unfold buttonSize widthBucket
  rw [if_neg (not_not.mpr hc), Int.toNat_ofNat, h]

theorem buttonSize_values (screens : List QScreen) (screen : Int) :
    buttonSize screens screen = 12 ∨ buttonSize screens screen = 14 ∨
      buttonSize screens screen = 16 ∨ buttonSize screens screen = 22 := by
  unfold buttonSize
  split_ifs
  · split
    · right; right; left; rfl
    · simp only []
      split_ifs <;> simp
  · right; right; left; rfl

/-- C1: `buttonSize` is the screen-width bucket function.  For a valid
screen index whose available geometry has width `w` it returns 12 for
`w <= 1024`, 14 for `1024 < w <= 1377`, 16 for `1377 < w <= 1920` and 22 for
`w > 1920`; for an index that is negative or not below the number of screens
it returns 16.  The result is one of 12, 14, 16, 22 and is non-decreasing in
the width. -/
theorem buttonSize_bucket (screens : List QScreen) (screen : Int) :
    (∀ (i : Nat) (sc : QScreen), screens.get? i = some sc →
      buttonSize screens (i : Int) = widthBucket sc.availableGeometry.width ∧
      (sc.availableGeometry.width ≤ 1024 → buttonSize screens (i : Int) = 12) ∧
      (1024 < sc.availableGeometry.width → sc.availableGeometry.width ≤ 1377 →
        buttonSize screens (i : Int) = 14) ∧
      (1377 < sc.availableGeometry.width → sc.availableGeometry.width ≤ 1920 →
        buttonSize screens (i : Int) = 16) ∧
      (1920 < sc.availableGeometry.width → buttonSize screens (i : Int) = 22)) ∧
    (screen < 0 ∨ (screens.length : Int) ≤ screen → buttonSize screens screen = 16) ∧
    (buttonSize screens screen = 12 ∨ buttonSize screens screen = 14 ∨
      buttonSize screens screen = 16 ∨ buttonSize screens screen = 22) ∧
    (∀ (i j : Nat) (sc sc' : QScreen) (screens' : List QScreen),
      screens.get? i = some sc → screens'.get? j = some sc' →
      sc.availableGeometry.width ≤ sc'.availableGeometry.width →
      buttonSize screens (i : Int) ≤ buttonSize screens' (j : Int)) := by
  have valid := buttonSize_valid
  refine ⟨?_, ?_, buttonSize_values screens screen, ?_⟩
  · intro i sc h
    rw [valid screens i sc h]
    unfold widthBucket
    refine ⟨rfl, ?_, ?_, ?_, ?_⟩
    · intro h1; simp [h1]
    · intro h1 h2
      rw [if_neg (by omega), if_pos h2]
    · intro h1 h2
      rw [if_neg (by omega), if_neg (by omega), if_pos h2]
    · intro h1
      rw [if_neg (by omega), if_neg (by omega), if_neg (by omega)]
  · intro h
    unfold buttonSize
    rw [if_pos (by omega)]
  · intro i j sc sc' screens' h h' hw
    rw [valid screens i sc h, valid screens' j sc' h']
    unfold widthBucket
    split_ifs <;> omega

/-! ## Visibility and enablement -/

/-- C2, as amended: for every list of active codes and every registered
button, after `setButtonsVisible(codes)` the button is visible and enabled
when its visibility code ends with "/always" and does not start with
"flake/"; and whenever its code starts with "flake/", whatever the code ends
with, the call skips the button and leaves its whole state as it was. -/
theorem setButtonsVisible_always (codes : List QString) (d : KoToolBox) (b : Nat)
    (hb : registered d b) :
    (endsWith (visibilityCode d b) (qs "/always") = true →
      startsWith (visibilityCode d b) (qs "flake/") = false →
      ((setButtonsVisible codes d).buttonWidgets b).visible = true ∧
      ((setButtonsVisible codes d).buttonWidgets b).enabled = true) ∧
    (startsWith (visibilityCode d b) (qs "flake/") = true →
      (setButtonsVisible codes d).buttonWidgets b = d.buttonWidgets b) := by
  rw [setButtonsVisible_apply, if_pos (show b ∈ mapKeys d.visibilityCodes from hb)]
  unfold visibleChange
  constructor
  · intro halways hf
    simp [hf, halways]
  · intro hf
    simp [hf]

/-- C3: for every list of active codes and every registered button whose
visibility code is the empty string, after `setButtonsVisible(codes)` the
button is visible, and it is enabled if and only if `codes` is non-empty. -/
theorem setButtonsVisible_empty_code (codes : List QString) (d : KoToolBox) (b : Nat)
    (hb : registered d b) (hcode : visibilityCode d b = []) :
    ((setButtonsVisible codes d).buttonWidgets b).visible = true ∧
    (((setButtonsVisible codes d).buttonWidgets b).enabled = true ↔ codes ≠ []) := by
  rw [setButtonsVisible_apply, if_pos (show b ∈ mapKeys d.visibilityCodes from hb), hcode]
  have h1 : startsWith [] (qs "flake/") = false := by decide
  have h2 : endsWith [] (qs "/always") = false := by decide
  unfold visibleChange
  simp [h1, h2]

/-- C4: for every list of active codes and every registered button whose
visibility code is non-empty, does not start with "flake/" and does not end
with "/always", after `setButtonsVisible(codes)` the button is visible if
and only if `codes` contains its code, and its enabled state is unchanged. -/
theorem setButtonsVisible_membership (codes : List QString) (d : KoToolBox) (b : Nat)
    (hb : registered d b) (hne : visibilityCode d b ≠ [])
    (hflake : startsWith (visibilityCode d b) (qs "flake/") = false)
    (halways : endsWith (visibilityCode d b) (qs "/always") = false) :
    (((setButtonsVisible codes d).buttonWidgets b).visible = true ↔
      visibilityCode d b ∈ codes) ∧
    ((setButtonsVisible codes d).buttonWidgets b).enabled = (d.buttonWidgets b).enabled := by
  rw [setButtonsVisible_apply, if_pos (show b ∈ mapKeys d.visibilityCodes from hb)]
  unfold visibleChange
  simp [hflake, halways, hne]

/-- C5: `setCurrentLayer` sets the enabled state of every registered button
whose visibility code does not end with "/always" to
(layer is null, or the layer is shape-editable and visible), leaves the
enabled state of every button whose code ends with "/always" unchanged, and
changes the visibility of no button. -/
theorem setCurrentLayer_effect (layer : Option KoShapeLayer) (d : KoToolBox) (b : Nat) :
    (registered d b → endsWith (visibilityCode d b) (qs "/always") = false →
      (((setCurrentLayer layer d).buttonWidgets b).enabled = true ↔
        (layer = none ∨ ∃ l, layer = some l ∧ l.isShapeEditable = true ∧ l.isVisible = true))) ∧
    (endsWith (visibilityCode d b) (qs "/always") = true →
      ((setCurrentLayer layer d).buttonWidgets b).enabled = (d.buttonWidgets b).enabled) ∧
    ((setCurrentLayer layer d).buttonWidgets b).visible = (d.buttonWidgets b).visible ∧
    (setCurrentLayer layer d).visibilityCodes = d.visibilityCodes := by
  rw [setCurrentLayer_apply]
  unfold layerChange
  refine ⟨?_, ?_, ?_, rfl⟩
  · intro hb hcode
    rw [if_pos (show b ∈ mapKeys d.visibilityCodes from hb)]
    simp only [hcode]
    cases layer with
    | none => simp [layerEnabled]
    | some l => simp [layerEnabled]
  · intro hcode
    split_ifs <;> simp_all
  · split_ifs <;> rfl

/-- C8: if a button is registered under the tool manager's active tool id,
then after `setActiveTool` that button is checked and is the recorded
selected button; if no button is registered under that id, the recorded
selected button and the checked state of every button are unchanged. -/
theorem setActiveTool_effect (activeToolId : QString) (d : KoToolBox) :
    (∀ button, mapValue activeToolId d.buttonsByToolId = some button →
      ((setActiveTool activeToolId d).buttonWidgets button).checked = true ∧
      (setActiveTool activeToolId d).selectedButton = some button) ∧
    (mapValue activeToolId d.buttonsByToolId = none →
      (setActiveTool activeToolId d).selectedButton = d.selectedButton ∧
      ∀ b, ((setActiveTool activeToolId d).buttonWidgets b).checked =
        (d.buttonWidgets b).checked) := by
  constructor
  · intro button h
    simp [setActiveTool, h, setChecked, setAt_same]
  · intro h
    simp [setActiveTool, h]

/-- C9: `toolAdded(toolAction)` is `addButton(toolAction)` followed by
`setButtonsVisible` of the empty code list.  Afterwards the new button is
registered (in the button list, under its tool id and with its visibility
code), every registered button whose code is non-empty, does not start with
"flake/" and does not end with "/always" is hidden, and every registered
button with an empty code is visible and disabled, whatever the state
before the call was. -/
theorem toolAdded_effect (applicationName : QString) (init : QToolButton)
    (toolAction : KoToolAction) (d : KoToolBox) (b : Nat) :
    toolAdded applicationName init toolAction d =
      setButtonsVisible [] (addButton applicationName init toolAction d) ∧
    registered (toolAdded applicationName init toolAction d) d.nextButton ∧
    d.nextButton ∈ (toolAdded applicationName init toolAction d).buttons ∧
    mapValue toolAction.id (toolAdded applicationName init toolAction d).buttonsByToolId =
      some d.nextButton ∧
    visibilityCode (toolAdded applicationName init toolAction d) d.nextButton =
      toolAction.visibilityCode ∧
    (registered (toolAdded applicationName init toolAction d) b →
      visibilityCode (toolAdded applicationName init toolAction d) b ≠ [] →
      startsWith (visibilityCode (toolAdded applicationName init toolAction d) b)
        (qs "flake/") = false →
      endsWith (visibilityCode (toolAdded applicationName init toolAction d) b)
        (qs "/always") = false →
      ((toolAdded applicationName init toolAction d).buttonWidgets b).visible = false) ∧
    (registered (toolAdded applicationName init toolAction d) b →
      visibilityCode (toolAdded applicationName init toolAction d) b = [] →
      ((toolAdded applicationName init toolAction d).buttonWidgets b).visible = true ∧
      ((toolAdded applicationName init toolAction d).buttonWidgets b).enabled = false) := by
  have hvc : (toolAdded applicationName init toolAction d).visibilityCodes =
      mapInsert d.nextButton toolAction.visibilityCode d.visibilityCodes :=
    addButton_visibilityCodes applicationName init toolAction d
  have hcode : ∀ x, visibilityCode (toolAdded applicationName init toolAction d) x =
      visibilityCode (addButton applicationName init toolAction d) x := fun _ => rfl
  refine ⟨rfl, ?_, ?_, ?_, ?_, ?_, ?_⟩
  · unfold registered
    rw [hvc, mem_mapKeys_mapInsert]
    exact Or.inl rfl
  · show d.nextButton ∈ (addButton applicationName init toolAction d).buttons
    rw [addButton_buttons]
    simp
  · show mapValue toolAction.id (addButton applicationName init toolAction d).buttonsByToolId = _
    rw [addButton_buttonsByToolId, mapValue_mapInsert]
    simp
  · unfold visibilityCode
    rw [hvc, mapValue_mapInsert]
    simp
  · intro hb hne hflake halways
    rw [hcode] at hne hflake halways
    show ((setButtonsVisible [] (addButton applicationName init toolAction d)).buttonWidgets
      b).visible = false
    rw [setButtonsVisible_apply,
      if_pos (show b ∈ mapKeys (addButton applicationName init toolAction d).visibilityCodes
        from hb)]
    unfold visibleChange
    simp [hflake, halways, hne]
  · intro hb hempty
    rw [hcode] at hempty
    show ((setButtonsVisible [] (addButton applicationName init toolAction d)).buttonWidgets
        b).visible = true ∧
      ((setButtonsVisible [] (addButton applicationName init toolAction d)).buttonWidgets
        b).enabled = false
    rw [setButtonsVisible_apply,
      if_pos (show b ∈ mapKeys (addButton applicationName init toolAction d).visibilityCodes
        from hb), hempty]
    have h1 : startsWith [] (qs "flake/") = false := by decide
    have h2 : endsWith [] (qs "/always") = false := by decide
    unfold visibleChange
    simp [h1, h2]

/-! ## Icon size -/

/-- The icon size of a button after `applyIconSize`. -/
theorem applyIconSize_buttonWidgets (d : KoToolBox) (b : Nat) :
    (applyIconSize d).buttonWidgets b =
      if b ∈ d.buttons then { d.buttonWidgets b with iconSize := ⟨d.iconSize, d.iconSize⟩ }
      else d.buttonWidgets b :=
  foldl_setAt_apply
    (fun (_ : Nat) (x : QToolButton) =>
      ({ x with iconSize := ⟨d.iconSize, d.iconSize⟩ } : QToolButton))
    (fun _ _ => rfl) d.buttons d.buttonWidgets b

/-- The button size of a section after `applyIconSize`. -/
theorem applyIconSize_sectionWidgets (d : KoToolBox) (p : Nat) :
    (applyIconSize d).sectionWidgets p =
      if p ∈ mapValues d.sections then
        { d.sectionWidgets p with buttonSize :=
          ⟨int32 (d.iconSize + BUTTON_MARGIN), int32 (d.iconSize + BUTTON_MARGIN)⟩ }
      else d.sectionWidgets p :=
  foldl_setAt_apply
    (fun (_ : Nat) (x : Section) =>
      ({ x with buttonSize :=
        ⟨int32 (d.iconSize + BUTTON_MARGIN), int32 (d.iconSize + BUTTON_MARGIN)⟩ } : Section))
    (fun _ _ => rfl) (mapValues d.sections) d.sectionWidgets p

theorem chosenIconSize_mapped (action : Nat) (screens : List QScreen) (widgetsScreen : Int)
    (d : KoToolBox) (h : ActionsInv d) (v : Int)
    (hv : mapValue action d.contextIconSizes = some v) :
    chosenIconSize action screens widgetsScreen d = v := by
  have hdef : ¬ (some action = d.defaultIconSizeAction) := by
    intro e
    have := (h.2 action e.symm).2
    rw [hv] at this
    cases this
  have hmem := (h.1 action v hv).1
  have hpos : v ≥ 0 := by
    simp [menuSizes] at hmem
    omega
  unfold chosenIconSize
  simp only [hdef, if_false, hv]
  rw [if_pos hpos]

theorem chosenIconSize_default (action : Nat) (screens : List QScreen) (widgetsScreen : Int)
    (d : KoToolBox) (hdef : d.defaultIconSizeAction = some action) :
    chosenIconSize action screens widgetsScreen d = buttonSize screens widgetsScreen := by
  have hpos : buttonSize screens widgetsScreen ≥ 0 := by
    have := buttonSize_values screens widgetsScreen
    omega
  unfold chosenIconSize
  simp only [hdef, if_true]
  rw [if_pos hpos]

theorem chosenIconSize_neither (action : Nat) (screens : List QScreen) (widgetsScreen : Int)
    (d : KoToolBox) (hdef : d.defaultIconSizeAction ≠ some action)
    (hv : mapValue action d.contextIconSizes = none) :
    chosenIconSize action screens widgetsScreen d = 16 := by
  have hdef' : ¬ (some action = d.defaultIconSizeAction) := fun e => hdef e.symm
  unfold chosenIconSize
  simp [hdef', hv]

theorem chosenIconSize_bounds (action : Nat) (screens : List QScreen) (widgetsScreen : Int)
    (d : KoToolBox) (h : ActionsInv d) :
    0 ≤ chosenIconSize action screens widgetsScreen d ∧
    chosenIconSize action screens widgetsScreen d ≤ 64 := by
  by_cases hdef : d.defaultIconSizeAction = some action
  · rw [chosenIconSize_default action screens widgetsScreen d hdef]
    have := buttonSize_values screens widgetsScreen
    omega
  · cases hv : mapValue action d.contextIconSizes with
    | none =>
      rw [chosenIconSize_neither action screens widgetsScreen d hdef hv]
      omega
    | some v =>
      rw [chosenIconSize_mapped action screens widgetsScreen d h v hv]
      have hmem := (h.1 action v hv).1
      simp [menuSizes] at hmem
      omega

/-- C6: after `slotContextIconSize` is triggered by a non-null action, the
value written to the persisted "iconSize" entry equals the stored
`iconSize`, every button of the button list has icon size
`iconSize x iconSize`, and every section has button size
`(iconSize + 10) x (iconSize + 10)`; the stored `iconSize` is the size
mapped to the triggering menu action, or `buttonSize` of the current screen
for the Default action, or 16 when the action is neither. -/
theorem slotContextIconSize_effect (d : KoToolBox) (hd : Reachable d) (action : Nat)
    (screens : List QScreen) (widgetsScreen : Int) :
    (slotContextIconSize (some action) screens widgetsScreen d).config =
      some (slotContextIconSize (some action) screens widgetsScreen d).iconSize ∧
    (∀ b, b ∈ (slotContextIconSize (some action) screens widgetsScreen d).buttons →
      ((slotContextIconSize (some action) screens widgetsScreen d).buttonWidgets b).iconSize =
        ⟨(slotContextIconSize (some action) screens widgetsScreen d).iconSize,
         (slotContextIconSize (some action) screens widgetsScreen d).iconSize⟩) ∧
    (∀ p, p ∈ mapValues (slotContextIconSize (some action) screens widgetsScreen d).sections →
      ((slotContextIconSize (some action) screens widgetsScreen d).sectionWidgets p).buttonSize =
        ⟨(slotContextIconSize (some action) screens widgetsScreen d).iconSize + 10,
         (slotContextIconSize (some action) screens widgetsScreen d).iconSize + 10⟩) ∧
    (∀ v, mapValue action d.contextIconSizes = some v →
      (slotContextIconSize (some action) screens widgetsScreen d).iconSize = v) ∧
    (d.defaultIconSizeAction = some action →
      (slotContextIconSize (some action) screens widgetsScreen d).iconSize =
        buttonSize screens widgetsScreen) ∧
    (d.defaultIconSizeAction ≠ some action → mapValue action d.contextIconSizes = none →
      (slotContextIconSize (some action) screens widgetsScreen d).iconSize = 16) := by
  have hinv := hd.inv.2.2
  obtain ⟨acts, e⟩ := slotContextIconSize_some action screens widgetsScreen d
  obtain ⟨hlo, hhi⟩ := chosenIconSize_bounds action screens widgetsScreen d hinv
  rw [e]
  refine ⟨rfl, ?_, ?_, ?_, ?_, ?_⟩
  · intro b hb
    rw [applyIconSize_buttonWidgets]
    split_ifs with h
    · rfl
    · exact absurd hb h
  · intro p hp
    rw [applyIconSize_sectionWidgets]
    rw [if_pos (show p ∈ mapValues d.sections from hp)]
    have hwrap : int32 (chosenIconSize action screens widgetsScreen d + BUTTON_MARGIN) =
        chosenIconSize action screens widgetsScreen d + 10 := by
      unfold int32 BUTTON_MARGIN
      omega
    show (⟨int32 (chosenIconSize action screens widgetsScreen d + BUTTON_MARGIN),
      int32 (chosenIconSize action screens widgetsScreen d + BUTTON_MARGIN)⟩ : QSize) = _
    rw [hwrap]
    rfl
  · intro v hv
    exact chosenIconSize_mapped action screens widgetsScreen d hinv v hv
  · intro hdef
    exact chosenIconSize_default action screens widgetsScreen d hdef
  · intro hdef hv
    exact chosenIconSize_neither action screens widgetsScreen d hdef hv

/-! ## Sections -/

/-- C7: for a tool action with section string `s`, `addButton` adds the
button to the section named "main" if `s` contains the application name or
contains "main", otherwise to "dynamic" if `s` contains "dynamic", otherwise
to the section named exactly `s`, which is created and registered under
that name if it does not exist yet.  Existing sections are never replaced,
and the sections "main" and "dynamic" exist in every state reachable from
the constructor. -/
theorem addButton_section_routing (d : KoToolBox) (hd : Reachable d)
    (applicationName : QString) (init : QToolButton) (toolAction : KoToolAction) :
    (contains toolAction.toolSection applicationName = true ∨
        contains toolAction.toolSection (qs "main") = true →
      sectionToBeAddedTo applicationName toolAction.toolSection = qs "main") ∧
    (contains toolAction.toolSection applicationName = false →
      contains toolAction.toolSection (qs "main") = false →
      contains toolAction.toolSection (qs "dynamic") = true →
      sectionToBeAddedTo applicationName toolAction.toolSection = qs "dynamic") ∧
    (contains toolAction.toolSection applicationName = false →
      contains toolAction.toolSection (qs "main") = false →
      contains toolAction.toolSection (qs "dynamic") = false →
      sectionToBeAddedTo applicationName toolAction.toolSection = toolAction.toolSection) ∧
    (∃ p,
      mapValue (sectionToBeAddedTo applicationName toolAction.toolSection)
        (addButton applicationName init toolAction d).sections = some p ∧
      ((addButton applicationName init toolAction d).sectionWidgets p).name =
        sectionToBeAddedTo applicationName toolAction.toolSection ∧
      (d.nextButton, toolAction.priority) ∈
        ((addButton applicationName init toolAction d).sectionWidgets p).buttons ∧
      (∀ q, q ≠ p →
        (addButton applicationName init toolAction d).sectionWidgets q = d.sectionWidgets q) ∧
      (∀ p0, mapValue (sectionToBeAddedTo applicationName toolAction.toolSection) d.sections =
        some p0 → p = p0) ∧
      (mapValue (sectionToBeAddedTo applicationName toolAction.toolSection) d.sections = none →
        p = d.nextSection ∧ (∀ n, mapValue n d.sections ≠ some p) ∧
        ((addButton applicationName init toolAction d).sectionWidgets p).buttons =
          [(d.nextButton, toolAction.priority)])) ∧
    (∀ n q, mapValue n d.sections = some q →
      mapValue n (addButton applicationName init toolAction d).sections = some q) ∧
    (∀ n, n ≠ sectionToBeAddedTo applicationName toolAction.toolSection →
      mapValue n (addButton applicationName init toolAction d).sections =
        mapValue n d.sections) ∧
    (mapValue (qs "main") d.sections).isSome = true ∧
    (mapValue (qs "dynamic") d.sections).isSome = true ∧
    (mapValue (qs "main") (addButton applicationName init toolAction d).sections).isSome = true ∧
    (mapValue (qs "dynamic")
      (addButton applicationName init toolAction d).sections).isSome = true := by
  obtain ⟨h1, h2, h3⟩ := hd.inv.2.1
  obtain ⟨_, g2, g3⟩ := SectionsInv_addButton applicationName init toolAction d hd.inv.2.1
  refine ⟨?_, ?_, ?_, ?_, ?_, ?_, h2, h3, g2, g3⟩
  · intro h
    unfold sectionToBeAddedTo
    rcases h with h | h
    · simp [h]
    · simp [h]
  · intro ha hm hdyn
    unfold sectionToBeAddedTo
    simp [ha, hm, hdyn]
  · intro ha hm hdyn
    unfold sectionToBeAddedTo
    simp [ha, hm, hdyn]
  · cases hs : mapValue (sectionToBeAddedTo applicationName toolAction.toolSection) d.sections with
    | some p0 =>
      obtain ⟨e1, _, e3⟩ := addButton_sections_some applicationName init toolAction d p0 hs
      refine ⟨p0, ?_, ?_, ?_, ?_, ?_, ?_⟩
      · rw [e1]; exact hs
      · rw [e3, setAt_same]
        exact (h1 _ p0 hs).2
      · rw [e3, setAt_same]
        simp
      · intro q hq
        rw [e3, setAt_other _ _ _ _ hq]
      · intro p1 hp1
        cases hp1
        rfl
      · intro hnone
        cases hnone
    | none =>
      obtain ⟨e1, _, e3⟩ := addButton_sections_none applicationName init toolAction d hs
      refine ⟨d.nextSection, ?_, ?_, ?_, ?_, ?_, ?_⟩
      · rw [e1, mapValue_mapInsert]
        simp
      · rw [e3, setAt_same]
      · rw [e3, setAt_same]
        simp
      · intro q hq
        rw [e3, setAt_other _ _ _ _ hq]
      · intro p1 hp1
        cases hp1
      · intro _
        refine ⟨rfl, ?_, ?_⟩
        · intro n hn
          exact Nat.lt_irrefl _ (h1 n _ hn).1
        · rw [e3, setAt_same]
  · intro n q hq
    cases hs : mapValue (sectionToBeAddedTo applicationName toolAction.toolSection) d.sections with
    | some p0 =>
      rw [(addButton_sections_some applicationName init toolAction d p0 hs).1]
      exact hq
    | none =>
      rw [(addButton_sections_none applicationName init toolAction d hs).1, mapValue_mapInsert]
      split_ifs with hn
      · subst hn
        rw [hs] at hq
        cases hq
      · exact hq
  · intro n hn
    cases hs : mapValue (sectionToBeAddedTo applicationName toolAction.toolSection) d.sections with
    | some p0 =>
      rw [(addButton_sections_some applicationName init toolAction d p0 hs).1]
    | none =>
      rw [(addButton_sections_none applicationName init toolAction d hs).1, mapValue_mapInsert,
        if_neg hn]

/-! ## Bookkeeping -/

/-- C10: in every reachable state, and again after any further call, the
keys of `visibilityCodes` are exactly the buttons of the button list and
every button stored in `buttonsByToolId` is in the button list.  After
`addButton(toolAction)` the lookup of the tool id in `buttonsByToolId`
yields the newly created button, whose recorded visibility code is the tool
action's; an earlier button with the same id is a different button and
stays in the button list. -/
theorem bookkeeping_invariant (d : KoToolBox) (hd : Reachable d) (op : Op)
    (applicationName : QString) (init : QToolButton) (toolAction : KoToolAction) :
    (∀ b, b ∈ mapKeys d.visibilityCodes ↔ b ∈ d.buttons) ∧
    (∀ id b, mapValue id d.buttonsByToolId = some b → b ∈ d.buttons) ∧
    (∀ b, b ∈ mapKeys (op.run d).visibilityCodes ↔ b ∈ (op.run d).buttons) ∧
    (∀ id b, mapValue id (op.run d).buttonsByToolId = some b → b ∈ (op.run d).buttons) ∧
    d.nextButton ∉ d.buttons ∧
    d.nextButton ∈ (addButton applicationName init toolAction d).buttons ∧
    mapValue toolAction.id (addButton applicationName init toolAction d).buttonsByToolId =
      some d.nextButton ∧
    mapValue d.nextButton (addButton applicationName init toolAction d).visibilityCodes =
      some toolAction.visibilityCode ∧
    (∀ b0, mapValue toolAction.id d.buttonsByToolId = some b0 →
      b0 ≠ d.nextButton ∧ b0 ∈ (addButton applicationName init toolAction d).buttons) ∧
    (∀ b, b ∈ d.buttons → b ∈ (addButton applicationName init toolAction d).buttons) := by
  obtain ⟨h1, h2, h3⟩ := hd.inv.1
  obtain ⟨g1, g2, _⟩ := (Inv_run op d hd.inv).1
  have hfresh : d.nextButton ∉ d.buttons := fun h => Nat.lt_irrefl _ (h3 _ h)
  refine ⟨h1, h2, g1, g2, hfresh, ?_, ?_, ?_, ?_, ?_⟩
  · rw [addButton_buttons]
    simp
  · rw [addButton_buttonsByToolId, mapValue_mapInsert]
    simp
  · rw [addButton_visibilityCodes, mapValue_mapInsert]
    simp
  · intro b0 hb0
    have hmem := h2 _ b0 hb0
    refine ⟨fun e => hfresh (e ▸ hmem), ?_⟩
    rw [addButton_buttons]
    simp [hmem]
  · intro b hb
    rw [addButton_buttons]
    simp [hb]

theorem exampleBox_reachable : Reachable exampleBox :=
  Reachable.init (qs "krita") (fun _ => hiddenButton) 0 [⟨⟨0, 0, 1919, 1079⟩⟩] none exampleTools

theorem exampleBoxWithMenu_reachable : Reachable exampleBoxWithMenu :=
  Reachable.step Op.setupIconSizeMenu exampleBox exampleBox_reachable

/-- C2, as stated, fails: in the tool box built for `exampleTools`, button 0
is registered with the code "flake/always", which ends with "/always", and
it is still not visible after `setButtonsVisible`. -/
theorem setButtonsVisible_always_counterexample :
    Reachable exampleBox ∧ registered exampleBox 0 ∧
    visibilityCode exampleBox 0 = qs "flake/always" ∧
    endsWith (visibilityCode exampleBox 0) (qs "/always") = true ∧
    ((setButtonsVisible [qs "flake/always"] exampleBox).buttonWidgets 0).visible = false :=
  ⟨exampleBox_reachable, by decide, by decide, by decide, by decide⟩

/-- Button 3 of `exampleBox`, with code "tool/always", is shown and enabled;
button 0 of `flakeEditBox`, with code "flake/edit", is left as it was. -/
theorem setButtonsVisible_always_witness :
    (registered exampleBox 3 ∧
      endsWith (visibilityCode exampleBox 3) (qs "/always") = true ∧
      startsWith (visibilityCode exampleBox 3) (qs "flake/") = false ∧
      ((setButtonsVisible [] exampleBox).buttonWidgets 3).visible = true ∧
      ((setButtonsVisible [] exampleBox).buttonWidgets 3).enabled = true) ∧
    (registered flakeEditBox 0 ∧
      visibilityCode flakeEditBox 0 = qs "flake/edit" ∧
      endsWith (visibilityCode flakeEditBox 0) (qs "/always") = false ∧
      (setButtonsVisible [qs "flake/edit"] flakeEditBox).buttonWidgets 0 =
        flakeEditBox.buttonWidgets 0) :=
  ⟨⟨by decide, by decide, by decide,
      (setButtonsVisible_always [] exampleBox 3 (by decide)).1 (by decide) (by decide)⟩,
    ⟨by decide, by decide, by decide,
      (setButtonsVisible_always [qs "flake/edit"] flakeEditBox 0 (by decide)).2 (by decide)⟩⟩

/-- Button 1 of `exampleBox` has the empty code. -/
theorem setButtonsVisible_empty_code_witness :
    registered exampleBox 1 ∧ visibilityCode exampleBox 1 = [] ∧
    ((setButtonsVisible [qs "KoPathShape"] exampleBox).buttonWidgets 1).visible = true ∧
    (((setButtonsVisible [qs "KoPathShape"] exampleBox).buttonWidgets 1).enabled = true ↔
      [qs "KoPathShape"] ≠ []) :=
  ⟨by decide, by decide,
    setButtonsVisible_empty_code [qs "KoPathShape"] exampleBox 1 (by decide) (by decide)⟩

/-- Button 2 of `exampleBox` is tied to the code "KoPathShape". -/
theorem setButtonsVisible_membership_witness :
    registered exampleBox 2 ∧ visibilityCode exampleBox 2 = qs "KoPathShape" ∧
    (((setButtonsVisible [qs "KoPathShape"] exampleBox).buttonWidgets 2).visible = true ↔
      visibilityCode exampleBox 2 ∈ [qs "KoPathShape"]) ∧
    ((setButtonsVisible [qs "KoPathShape"] exampleBox).buttonWidgets 2).enabled =
      (exampleBox.buttonWidgets 2).enabled :=
  ⟨by decide, by decide,
    setButtonsVisible_membership [qs "KoPathShape"] exampleBox 2 (by decide) (by decide)
      (by decide) (by decide)⟩

/-- Menu action 5 of `exampleBoxWithMenu` is mapped to 32. -/
theorem slotContextIconSize_effect_witness :
    Reachable exampleBoxWithMenu ∧ mapValue 5 exampleBoxWithMenu.contextIconSizes = some 32 ∧
    (slotContextIconSize (some 5) [] 0 exampleBoxWithMenu).iconSize = 32 :=
  ⟨exampleBoxWithMenu_reachable, by decide,
    (slotContextIconSize_effect exampleBoxWithMenu exampleBoxWithMenu_reachable 5 [] 0).2.2.2.1
      32 (by decide)⟩

/-- Adding a tool of a third section to `exampleBox` keeps "main". -/
theorem addButton_section_routing_witness :
    Reachable exampleBox ∧
    (mapValue (qs "main") (addButton (qs "krita") hiddenButton
      ⟨qs "ZoomTool", qs "navigation", 4, qs ""⟩ exampleBox).sections).isSome = true :=
  ⟨exampleBox_reachable,
    (addButton_section_routing exampleBox exampleBox_reachable (qs "krita") hiddenButton
      ⟨qs "ZoomTool", qs "navigation", 4, qs ""⟩).2.2.2.2.2.2.2.2.1⟩

/-- Adding a second "PanTool" to `exampleBox` registers the new button. -/
theorem bookkeeping_invariant_witness :
    Reachable exampleBox ∧
    mapValue (qs "PanTool") (addButton (qs "krita") hiddenButton
      ⟨qs "PanTool", qs "navigation", 4, qs ""⟩ exampleBox).buttonsByToolId =
        some exampleBox.nextButton :=
  ⟨exampleBox_reachable,
    (bookkeeping_invariant exampleBox exampleBox_reachable Op.applyIconSize (qs "krita")
      hiddenButton ⟨qs "PanTool", qs "navigation", 4, qs ""⟩).2.2.2.2.2.2.1⟩

end KoToolBoxModel
